import Mathlib

/-!
Verification development for the `ReactiveCollection` engine of reactive-db-js
(`src/lib/reactive-collection.js`).

The embedding models a JavaScript value as the inductive type `Value`
(restricted to the document domain: `undefined`, `null`, booleans, integer
numbers, strings, arrays and plain objects), a document as an ordered list of
key/value fields, and the collection state (`ReactiveCollection`) as a record
holding the document sequence, the id counter, the subscriber registry and the
pending-change buffer.  Each public operation of the source class is translated
into a pure state-passing function; the debounce timer is modelled by the
`_notifyTimeout` flag (armed / not armed) together with an explicit
`flushNotifications` step that represents the timer firing.
-/

set_option linter.unusedVariables false

/-- A JavaScript value of the document domain. -/
inductive Value where
  | undef : Value
  | null : Value
  | bool : Bool → Value
  | num : Int → Value
  | str : String → Value
  | arr : List Value → Value
  | obj : List (String × Value) → Value

mutual
/-- Structural equality of values; models JavaScript strict equality `===` on
the primitive part of the domain (object/array operands never reach an `===`
comparison in the matcher's reachable paths for the claims below). -/
def Value.beq : Value → Value → Bool
  | .undef, .undef => true
  | .null, .null => true
  | .bool a, .bool b => a == b
  | .num a, .num b => a == b
  | .str a, .str b => a == b
  | .arr xs, .arr ys => Value.beqList xs ys
  | .obj fs, .obj gs => Value.beqPairs fs gs
  | _, _ => false

/-- Pointwise `Value.beq` on lists of values. -/
def Value.beqList : List Value → List Value → Bool
  | [], [] => true
  | x :: xs, y :: ys => Value.beq x y && Value.beqList xs ys
  | _, _ => false

/-- Pointwise `Value.beq` on field lists. -/
def Value.beqPairs : List (String × Value) → List (String × Value) → Bool
  | [], [] => true
  | (k1, v1) :: xs, (k2, v2) :: ys => k1 == k2 && Value.beq v1 v2 && Value.beqPairs xs ys
  | _, _ => false
end

mutual
theorem Value.beq_iff_eq : ∀ (a b : Value), Value.beq a b = true ↔ a = b
  | .undef, b => by cases b <;> simp [Value.beq]
  | .null, b => by cases b <;> simp [Value.beq]
  | .bool a, b => by cases b <;> simp [Value.beq]
  | .num a, b => by cases b <;> simp [Value.beq]
  | .str a, b => by cases b <;> simp [Value.beq]
  | .arr xs, b => by
      cases b <;> simp [Value.beq]
      exact Value.beqList_iff_eq xs _
  | .obj fs, b => by
      cases b <;> simp [Value.beq]
      exact Value.beqPairs_iff_eq fs _

theorem Value.beqList_iff_eq : ∀ (xs ys : List Value), Value.beqList xs ys = true ↔ xs = ys
  | [], ys => by cases ys <;> simp [Value.beqList]
  | x :: xs, ys => by
      cases ys with
      | nil => simp [Value.beqList]
      | cons y ys =>
          simp [Value.beqList, Value.beq_iff_eq x y, Value.beqList_iff_eq xs ys]

theorem Value.beqPairs_iff_eq : ∀ (xs ys : List (String × Value)),
    Value.beqPairs xs ys = true ↔ xs = ys
  | [], ys => by cases ys <;> simp [Value.beqPairs]
  | (k1, v1) :: xs, ys => by
      cases ys with
      | nil => simp [Value.beqPairs]
      | cons p ys =>
          rcases p with ⟨k2, v2⟩
          simp [Value.beqPairs, Value.beq_iff_eq v1 v2, Value.beqPairs_iff_eq xs ys]
end

instance : BEq Value := ⟨Value.beq⟩

instance : LawfulBEq Value where
  eq_of_beq h := (Value.beq_iff_eq _ _).mp h
  rfl := (Value.beq_iff_eq _ _).mpr rfl

instance : DecidableEq Value := fun a b =>
  decidable_of_iff (Value.beq a b = true) (Value.beq_iff_eq a b)

/-- A document (or any plain JavaScript object): an ordered list of
key/value fields, keys pairwise distinct in every reachable state. -/
abbrev Doc := List (String × Value)

/-- Look up the field `key` in a document (first occurrence). -/
def getField : Doc → String → Option Value
  | [], _ => none
  | (k, v) :: rest, key => if k = key then some v else getField rest key

/-- JavaScript property read `d[key]`: `undefined` when the field is absent. -/
def jsGetD (d : Doc) (key : String) : Value :=
  (getField d key).getD Value.undef

/-- JavaScript property write `d[key] = v`: updates the field in place if
present (keeping its position), appends it otherwise. -/
def setField (d : Doc) (key : String) (v : Value) : Doc :=
  if d.any (fun p => p.1 == key) then
    d.map (fun p => if p.1 == key then (key, v) else p)
  else d ++ [(key, v)]

/-- JavaScript truthiness of a value. -/
def truthy : Value → Bool
  | .undef => false
  | .null => false
  | .bool b => b
  | .num n => n != 0
  | .str s => !s.isEmpty
  | .arr _ => true
  | .obj _ => true

/-- `typeof v === 'object'` (true for `null`, arrays and plain objects). -/
def isObjectType : Value → Bool
  | .null => true
  | .arr _ => true
  | .obj _ => true
  | _ => false

/-- `Object.prototype.hasOwnProperty.call(v, key)` on the document domain. -/
def hasProp : Value → String → Bool
  | .obj fields, key => fields.any (fun p => p.1 == key)
  | _, _ => false

/-- Property read `v[key]` on the document domain (`undefined` off objects). -/
def getProp : Value → String → Value
  | .obj fields, key => jsGetD fields key
  | _, _ => Value.undef

/-- JavaScript `<` on the number/number and string/string cases (the native
orderings named by the spec); `false` elsewhere in the modelled domain. -/
def jsLt : Value → Value → Bool
  | .num a, .num b => a < b
  | .str a, .str b => a < b
  | _, _ => false

/-- JavaScript `>` on the modelled domain. -/
def jsGt : Value → Value → Bool
  | .num a, .num b => a > b
  | .str a, .str b => a > b
  | _, _ => false

/-- JavaScript `<=` on the modelled domain. -/
def jsLte : Value → Value → Bool
  | .num a, .num b => a ≤ b
  | .str a, .str b => a ≤ b
  | _, _ => false

/-- JavaScript `>=` on the modelled domain. -/
def jsGte : Value → Value → Bool
  | .num a, .num b => a ≥ b
  | .str a, .str b => a ≥ b
  | _, _ => false

/-- Helper for `Array.prototype.indexOf`: index of the first strict-equality
match starting at position `i`, `-1` when there is none. -/
def jsIndexOfAux (x : Value) : Int → List Value → Int
  | _, [] => -1
  | i, y :: ys => if y == x then i else jsIndexOfAux x (i + 1) ys

/-- `v.indexOf(x)` for an array value `v` (`-1` on non-arrays). -/
def jsIndexOf (v : Value) (x : Value) : Int :=
  match v with
  | .arr xs => jsIndexOfAux x 0 xs
  | _ => -1

/-- One operator case of the inner `switch` of `_elementIsValidForQuery`
(src/lib/reactive-collection.js:458-483): whether the sub-key
`subAttribute` with operand `operand` rules the element out.  `recur` is the
result of the recursive `_elementIsValidForQuery` call used by the `default`
branch (the nested sub-query case). -/
def subOperatorFails (el : Value) (attrib : String) (subAttribute : String) (operand : Value)
    (recur : Bool) : Bool :=
  match subAttribute with
  | "$lte" => jsGt (getProp el attrib) operand
  | "$lt" => jsGte (getProp el attrib) operand
  | "$gte" => jsLt (getProp el attrib) operand
  | "$gt" => jsLte (getProp el attrib) operand
  | "$ne" => getProp el attrib == operand
  | "$eq" => getProp el attrib != operand
  | "$in" => jsIndexOf operand (getProp el attrib) < 0
  | "$nin" => jsIndexOf operand (getProp el attrib) ≥ 0
  | "$exists" =>
      if truthy operand then getProp el attrib == Value.undef
      else getProp el attrib != Value.undef
  | _ => !recur

mutual
/-- `_elementIsValidForQuery(elementToTest, query)`
(src/lib/reactive-collection.js:442-492).  The `Object.keys(query).some`
loop is `entriesDoNotMatch` / `arrEntriesDoNotMatch` (arrays enumerate their
index keys, as `Object.keys` does); values without enumerable keys yield an
empty loop, hence a match. -/
def elementIsValidForQuery (elementToTest : Value) (query : Value) : Bool :=
  match query with
  | .obj fields => !(entriesDoNotMatch elementToTest fields)
  | .arr xs => !(arrEntriesDoNotMatch elementToTest 0 xs)
  | _ => true

/-- The outer `some` loop of `_elementIsValidForQuery` over the query's
own key/value entries. -/
def entriesDoNotMatch (el : Value) : List (String × Value) → Bool
  | [] => false
  | (attrib, csq) :: rest => entryDoesNotMatch el attrib csq || entriesDoNotMatch el rest

/-- The outer `some` loop when the query is an array (its `Object.keys` are
the decimal index strings). -/
def arrEntriesDoNotMatch (el : Value) : Nat → List Value → Bool
  | _, [] => false
  | i, csq :: rest => entryDoesNotMatch el (toString i) csq || arrEntriesDoNotMatch el (i + 1) rest

/-- One iteration of the outer loop: the presence guard
(src/lib/reactive-collection.js:450-452), then the operator sub-loop for
truthy object sub-queries, else the strict-equality fall-through
(src/lib/reactive-collection.js:488). The recursive
`_elementIsValidForQuery(elementToTest[attribute], currentSubQuery)` of the
`default` branch is taken inline here, at the point where `currentSubQuery`
is destructured. -/
def entryDoesNotMatch (el : Value) (attrib : String) (csq : Value) : Bool :=
  if truthy csq && !hasProp el attrib then true
  else if truthy csq && isObjectType csq then
    match csq with
    | .obj subFields =>
        subEntriesDoNotMatchAny el attrib
          (!(entriesDoNotMatch (getProp el attrib) subFields)) subFields
    | .arr xs =>
        subArrEntriesDoNotMatchAny el attrib
          (!(arrEntriesDoNotMatch (getProp el attrib) 0 xs)) 0 xs
    | _ => false
  else getProp el attrib != csq

/-- The inner `Object.keys(currentSubQuery).some` operator loop. -/
def subEntriesDoNotMatchAny (el : Value) (attrib : String) (recur : Bool) :
    List (String × Value) → Bool
  | [] => false
  | (subAttribute, operand) :: rest =>
      subOperatorFails el attrib subAttribute operand recur
      || subEntriesDoNotMatchAny el attrib recur rest

/-- The inner operator loop when the sub-query is an array value. -/
def subArrEntriesDoNotMatchAny (el : Value) (attrib : String) (recur : Bool) :
    Nat → List Value → Bool
  | _, [] => false
  | i, operand :: rest =>
      subOperatorFails el attrib (toString i) operand recur
      || subArrEntriesDoNotMatchAny el attrib recur (i + 1) rest
end

/-- `_orderByManyProperties(a, b, sort, keys, keyIndex)` represented on the
suffix `keys.drop keyIndex`: the head of the suffix is `keys[keyIndex]`, the
empty suffix is the `keyIndex >= keys.length` exhaustion case (where the two
comparisons on `undefined` key reads are both false and 0 is returned). -/
def orderByFromKeys (a b : Value) (sort : List (String × Int)) : List String → Int
  | [] => 0
  | currentKey :: restKeys =>
      let va := getProp a currentKey
      let vb := getProp b currentKey
      let dir : Int := (sort.lookup currentKey).getD 0
      if jsGt va vb then (if dir > 0 then 1 else -1)
      else if jsLt va vb then (if dir < 0 then 1 else -1)
      else orderByFromKeys a b sort restKeys

/-- `_orderByManyProperties` (src/lib/reactive-collection.js:494-505). -/
def orderByManyProperties (a b : Value) (sort : List (String × Int)) (keys : List String)
    (keyIndex : Nat) : Int :=
  orderByFromKeys a b sort (keys.drop keyIndex)

/-- Stable insertion into a sorted list: `x` is placed after every element
`y` with `le y x` (so later elements stay after earlier equal ones). -/
def insertSorted (le : α → α → Bool) (x : α) : List α → List α
  | [] => [x]
  | y :: ys => if le y x then y :: insertSorted le x ys else x :: y :: ys

/-- Model of `Array.prototype.sort(comparator)` (a stable sort of the array
by the comparator, per the ECMAScript specification): stable insertion sort
with `le a b` meaning `comparator(a, b) <= 0`. -/
def jsSortStable (le : α → α → Bool) (l : List α) : List α :=
  l.foldl (fun acc x => insertSorted le x acc) []

/-- The `options` object read by `find` (`sort`, `skip`, `limit`) and by
`update` (`upsert`); an absent option is its JavaScript default (`undefined`
behaves as the neutral value in every guard of the source). -/
structure FindOptions where
  sort : List (String × Int) := []
  skip : Int := 0
  limit : Int := 0
  upsert : Bool := false
deriving DecidableEq

/-- The projection stage of `find` (src/lib/reactive-collection.js:207-233):
build `{_id: el._id, ...kept}` keeping each projection key with a truthy
flag, then delete `_id` again if the projection explicitly maps `_id` to a
falsy flag. -/
def projectDoc (el : Doc) (projection : Doc) : Doc :=
  let spread := projection.foldl
    (fun final p =>
      if truthy (jsGetD projection p.1) then setField final p.1 (jsGetD el p.1) else final)
    []
  let retVal := spread.foldl (fun acc p => setField acc p.1 p.2) [("_id", jsGetD el "_id")]
  if projection.any (fun p => p.1 == "_id") && !truthy (jsGetD projection "_id") then
    retVal.filter (fun p => p.1 != "_id")
  else retVal

/-- The pure pipeline of `find` (src/lib/reactive-collection.js:184-234) on a
document sequence: filter by the matcher; sort only when the sort spec has at
least one key; `splice(skip)` (drop) only when `skip > 0`; `splice(0, limit)`
(take) only when `limit > 0`; then the projection stage. -/
def findDocs (content : List Doc) (query : Value) (projection : Option Doc)
    (options : FindOptions) : List Doc :=
  let results := content.filter (fun el => elementIsValidForQuery (.obj el) query)
  let keys := options.sort.map Prod.fst
  let results :=
    if keys.length == 0 then results
    else jsSortStable
      (fun a b => orderByManyProperties (.obj a) (.obj b) options.sort keys 0 ≤ 0) results
  let results := if options.skip > 0 then results.drop options.skip.toNat else results
  let results := if options.limit > 0 then results.take options.limit.toNat else results
  match projection with
  | some p => results.map (fun el => projectDoc el p)
  | none => results

/-- One pending `Change` record (src/lib/reactive-collection.js:410-427). -/
structure Change where
  collection : String
  _id : Value
  operationType : String
  fullDocument : Option Doc
deriving DecidableEq

/-- The state of a `ReactiveCollection`
(src/lib/reactive-collection.js:10-16).  Watchers are identified by a
number (reference identity of the `watcher` object); `_notifyTimeout` is
`true` exactly when the debounce timer is armed. -/
structure ReactiveCollection where
  _name : String
  _content : List Doc
  _watchers : List Nat
  _lastId : Nat
  _changesToNotify : List Change
  _notifyTimeout : Bool
deriving DecidableEq

/-- `new ReactiveCollection(name)`. -/
def newCollection (name : String) : ReactiveCollection :=
  { _name := name, _content := [], _watchers := [], _lastId := 0,
    _changesToNotify := [], _notifyTimeout := false }

/-- `find` with the argument validation guard of
src/lib/reactive-collection.js:185-187 (`typeof query !== 'object' &&
!Array.isArray(query)` rejects; note `typeof null === 'object'`): `none`
models the rejected promise. -/
def ReactiveCollection.find (c : ReactiveCollection) (query : Value) (projection : Option Doc)
    (options : FindOptions) : Option (List Doc) :=
  if isObjectType query then some (findDocs c._content query projection options) else none

/-- `_objectId()` (src/lib/reactive-collection.js:393-395): the decimal
string of the counter, which is then incremented. -/
def objectId (lastId : Nat) : String × Nat :=
  (toString lastId, lastId + 1)

/-- `_notifyChangesForIds(ids, operationType)`
(src/lib/reactive-collection.js:404-440): clear and re-arm the debounce
timer, build one Change per id (with `fullDocument` when the id is currently
found in the content), and replace the pending buffer by the old buffer
without entries for the given ids followed by the fresh changes. -/
def notifyChangesForIds (c : ReactiveCollection) (ids : List Value) (operationType : String) :
    ReactiveCollection :=
  let data := ids.map (fun current =>
    match c._content.find? (fun el => jsGetD el "_id" == current) with
    | some updated =>
        { collection := c._name, _id := current, operationType := operationType,
          fullDocument := some updated }
    | none =>
        { collection := c._name, _id := current, operationType := operationType,
          fullDocument := none })
  { c with
    _changesToNotify := c._changesToNotify.filter (fun el => !(ids.contains el._id)) ++ data,
    _notifyTimeout := true }

/-- The debounce timer firing (the `setTimeout` body of
src/lib/reactive-collection.js:434-439): every current watcher's callback is
invoked, in registration order, with the whole pending buffer; then the
buffer is cleared and no timer is pending.  The first component is the
delivery log: one `(watcher, payload)` pair per invoked callback. -/
def flushNotifications (c : ReactiveCollection) : List (Nat × List Change) × ReactiveCollection :=
  (c._watchers.map (fun w => (w, c._changesToNotify)),
   { c with _changesToNotify := [], _notifyTimeout := false })

/-- `subscribe(watcher, callback)` (src/lib/reactive-collection.js:39-45) on
the watcher registry: `Map.set` keeps the original insertion position of an
existing key and appends a new one. -/
def subscribe (c : ReactiveCollection) (watcher : Nat) : ReactiveCollection :=
  if c._watchers.contains watcher then c else { c with _watchers := c._watchers ++ [watcher] }

/-- The body of the `data.forEach` loop of `insert`
(src/lib/reactive-collection.js:91-97).  The accumulator carries the
processed documents, the id counter and the `badId` variable: a document
whose `_id` is `undefined` gets `_objectId()` assigned; a document whose
(caller-supplied) `_id` is already present in `this._content` overwrites
`badId` with that id; any other document passes through. -/
def ReactiveCollection.insertStep (c : ReactiveCollection) (acc : List Doc × Nat × Value) (obj : Doc) :
    List Doc × Nat × Value :=
  if jsGetD obj "_id" == Value.undef then
    let assigned := objectId acc.2.1
    (acc.1 ++ [setField obj "_id" (.str assigned.1)], assigned.2, acc.2.2)
  else if c._content.any (fun el => jsGetD obj "_id" == jsGetD el "_id") then
    (acc.1 ++ [obj], acc.2.1, jsGetD obj "_id")
  else
    (acc.1 ++ [obj], acc.2.1, acc.2.2)

/-- `insert(data)` (src/lib/reactive-collection.js:80-108) after the array
normalization `data = [data]`.  The `forEach` loop (`insertStep`) starts
with `badId = null` and the batch is rejected when `badId` ends different
from `null`.  On rejection (`some badId`) the content is untouched (only
the id counter has advanced); on success the processed batch is appended
and the fresh ids are notified as `insert`. -/
def ReactiveCollection.insert (data : List Doc) (c : ReactiveCollection) : Option Value × ReactiveCollection :=
  let step := data.foldl (ReactiveCollection.insertStep c) ([], c._lastId, Value.null)
  if step.2.2 != Value.null then
    (some step.2.2, { c with _lastId := step.2.1 })
  else
    let c1 := { c with _content := c._content ++ step.1, _lastId := step.2.1 }
    (none, notifyChangesForIds c1 (step.1.map (fun el => jsGetD el "_id")) "insert")

/-- `insertOne(data)` (src/lib/reactive-collection.js:124-132) for an object
argument: delegates to `insert`. -/
def ReactiveCollection.insertOne (data : Doc) (c : ReactiveCollection) : Option Value × ReactiveCollection :=
  ReactiveCollection.insert [data] c

/-- How a promise returned by a public operation settles: `resolved`,
`rejected`, or `pending` for a promise that never settles (an unhandled
inner rejection in a `new Promise` executor whose `resolve` is then never
reached). -/
inductive JsOutcome where
  | resolved : JsOutcome
  | rejected : JsOutcome
  | pending : JsOutcome
deriving DecidableEq

/-- The in-place patch application of `update`
(src/lib/reactive-collection.js:302-319) on one stored document: delete
every field except `_id`, then assign every field of the modified result
except `_id` (in the modified result's key order). -/
def updItem (result : Doc) (modified : Doc) : Doc :=
  (modified.filter (fun p => p.1 != "_id")).foldl
    (fun acc p => setField acc p.1 p.2)
    (result.filter (fun p => p.1 == "_id"))

/-- `update(query, replace, options)` (src/lib/reactive-collection.js:286-327).
`modify` is the external patch-application collaborator (the `modifyjs`
dependency, a pure `(doc, patch) -> newDoc` function per the spec).  A
rejected `find` or a failing inner `insertOne` leaves the outer promise
unsettled (`pending`), since the executor then never calls `resolve`. -/
def ReactiveCollection.update (modify : Value → Value → Doc) (query : Value) (replace : Value)
    (options : FindOptions) (c : ReactiveCollection) : JsOutcome × ReactiveCollection :=
  if !(isObjectType replace) then (.rejected, c)
  else
    match ReactiveCollection.find c query none options with
    | none => (.pending, c)
    | some results =>
      if results.length == 0 then
        if options.upsert then
          match ReactiveCollection.insertOne (modify query replace) c with
          | (none, c') => (.resolved, c')
          | (some _, c') => (.pending, c')
        else (.resolved, c)
      else
        let newContent := c._content.map (fun result =>
          if results.contains result then updItem result (modify (.obj result) replace)
          else result)
        let c1 := { c with _content := newContent }
        (.resolved, notifyChangesForIds c1 (results.map (fun el => jsGetD el "_id")) "update")

/-- The options object accepted by `remove`; only `justOne` is ever read by
the source (src/lib/reactive-collection.js:370), a caller-supplied `sort` is
carried but ignored. -/
structure RemoveOptions where
  justOne : Bool := false
  sort : List (String × Int) := []
deriving DecidableEq

/-- The body of the `results.forEach` loop of `remove`
(src/lib/reactive-collection.js:374-381): find the index of the first
content document with the candidate's `_id`; when found, record the id and
splice the document out. -/
def ReactiveCollection.removeStep (acc : List Doc × List Value) (result : Doc) : List Doc × List Value :=
  match acc.1.findIdx? (fun el => jsGetD el "_id" == jsGetD result "_id") with
  | some index => (acc.1.eraseIdx index, acc.2 ++ [jsGetD result "_id"])
  | none => acc

/-- `remove(query, options)` (src/lib/reactive-collection.js:369-385):
select candidates via `find(query, undefined, options.justOne ? {limit: 1} :
undefined)`, then remove each candidate's first id match from the content
(`removeStep`), collect the successfully removed ids, and notify them as
`remove`. -/
def ReactiveCollection.remove (query : Value) (options : RemoveOptions) (c : ReactiveCollection) :
    JsOutcome × ReactiveCollection :=
  match ReactiveCollection.find c query none (if options.justOne then { limit := 1 } else {}) with
  | none => (.rejected, c)
  | some results =>
    let step := results.foldl ReactiveCollection.removeStep (c._content, [])
    let c1 := { c with _content := step.1 }
    (.resolved, notifyChangesForIds c1 step.2 "remove")

/-- Following the spec's wording (§4.4 step 2): filter the store's full
sequence using the Matcher. -/
def matchStage (query : Value) (content : List Doc) : List Doc :=
  content.filter (fun el => elementIsValidForQuery (.obj el) query)

/-- Following the spec's wording (§4.4 step 3): if the sort spec has at
least one key, fully sort the sequence using the Comparator over the sort
spec's keys in their defined order. -/
def sortStage (sortSpec : List (String × Int)) (l : List Doc) : List Doc :=
  if sortSpec = [] then l
  else jsSortStable
    (fun a b => orderByManyProperties (.obj a) (.obj b) sortSpec (sortSpec.map Prod.fst) 0 ≤ 0) l

/-- Following the spec's wording (§4.4 step 4): drop the first N elements,
only if N > 0. -/
def skipStage (skip : Int) (l : List Doc) : List Doc :=
  if skip > 0 then l.drop skip.toNat else l

/-- Following the spec's wording (§4.4 step 4): truncate to the first N
elements, only if N > 0; applied after the skip stage. -/
def limitStage (limit : Int) (l : List Doc) : List Doc :=
  if limit > 0 then l.take limit.toNat else l

/-- Following the spec's wording (§4.4 step 5): apply the projection to each
output document when one is given. -/
def projectStage (projection : Option Doc) (l : List Doc) : List Doc :=
  match projection with
  | some p => l.map (fun el => projectDoc el p)
  | none => l

/-- Modelled from the spec: the external patch-application collaborator (§6,
the `modifyjs` dependency, which is not part of this repository) in its
full-replacement-document case — the result is the replacement document's
fields. -/
def modifyReplace (base : Value) (patch : Value) : Doc :=
  match patch with
  | .obj fs => fs
  | _ => []

/-- Modelled from the spec: the external patch-application collaborator (§6,
the `modifyjs` dependency, which is not part of this repository) in its
field-set modifier case — the base document with every field of the `$set`
mapping set to the given value. -/
def modifyWithSet (base : Value) (patch : Value) : Doc :=
  let setFields := match getProp patch "$set" with
    | .obj fs => fs
    | _ => []
  match base with
  | .obj fields => setFields.foldl (fun d p => setField d p.1 p.2) fields
  | _ => []

/-- The four-document collection of the repository's test suite: a fresh
collection after `insertMany([{num:1},{num:2},{num:3},{num:4}])`. -/
def sampleFour : ReactiveCollection :=
  (ReactiveCollection.insert [[("num", Value.num 1)], [("num", Value.num 2)],
           [("num", Value.num 3)], [("num", Value.num 4)]]
    (newCollection "test-collection")).2

-- helper lemmas
theorem hasProp_obj (d : Doc) (k : String) : hasProp (.obj d) k = (getField d k).isSome := by
  induction d with
  | nil => simp [hasProp, getField]
  | cons p rest ih =>
    rcases p with ⟨k1, v1⟩
    by_cases h : k1 = k
    · subst h; simp [hasProp, getField]
    · have hb : (k1 == k) = false := by simpa using h
      simp [hasProp, getField, h, hb] at ih ⊢
      exact ih

theorem getProp_obj (d : Doc) (k : String) : getProp (.obj d) k = (getField d k).getD Value.undef := rfl

-- C1 code bug
/-- Claim C1 (code bug witness): `_id` uniqueness is violated by the code.
A successful `insert` of the batch `[{_id:'a'}, {_id:'a', x:1}]` into an
empty collection stores two documents with `_id` `'a'` (the duplicate check
only compares against pre-existing content, not within the batch); and
inserting `{_id:'0'}` and then a document without `_id` stores two documents
with `_id` `'0'` (the auto-assigned counter id is never checked against
caller-supplied ids). -/
theorem C1_id_uniqueness_violated :
    (ReactiveCollection.insert [[("_id", Value.str "a")], [("_id", Value.str "a"), ("x", Value.num 1)]]
        (newCollection "c")).1 = none
    ∧ ((ReactiveCollection.insert [[("_id", Value.str "a")], [("_id", Value.str "a"), ("x", Value.num 1)]]
        (newCollection "c")).2._content.map (fun d => jsGetD d "_id"))
      = [Value.str "a", Value.str "a"]
    ∧ (ReactiveCollection.insert [[("num", Value.num 1)]]
        ((ReactiveCollection.insert [[("_id", Value.str "0")]] (newCollection "c")).2)).1 = none
    ∧ ((ReactiveCollection.insert [[("num", Value.num 1)]]
        ((ReactiveCollection.insert [[("_id", Value.str "0")]] (newCollection "c")).2)).2._content.map
          (fun d => jsGetD d "_id"))
      = [Value.str "0", Value.str "0"] := by
  refine ⟨by decide, by decide, by decide, by decide⟩

-- C4 counterexample
/-- Claim C4 (counterexample): the pending-changes buffer does NOT always
hold at most one Change per `_id`.  After the (successful) insert of the
batch `[{_id:'a'}, {_id:'a', x:1}]` into a fresh collection, the buffer
holds two pending Changes whose `_id` is `'a'`. -/
theorem C4_duplicate_pending_changes_counterexample :
    ((ReactiveCollection.insert [[("_id", Value.str "a")], [("_id", Value.str "a"), ("x", Value.num 1)]]
        (newCollection "c")).2._changesToNotify.map Change._id)
      = [Value.str "a", Value.str "a"] := by decide

-- C8 counterexample
/-- Claim C8 (counterexample): a document lacking field `f` does NOT match
the query `{f: null}`: the presence guard skips the falsy sub-query, but the
strict-equality fall-through compares `undefined !== null`, which holds, so
the matcher rejects the document. -/
theorem C8_null_query_missing_field_counterexample :
    elementIsValidForQuery (.obj []) (.obj [("f", Value.null)]) = false := by decide

/-- Claim C8 (amended): a falsy sub-query `{f: null}` is indeed not guarded
by the presence check, but it then falls through to strict equality, so
`{f: null}` matches exactly the documents whose value at `f` is `null`; in
particular a document lacking `f` reads `undefined` at `f` and does not
match. -/
theorem C8_null_subquery_strict_equality (d : Doc) (f : String) :
    elementIsValidForQuery (.obj d) (.obj [(f, Value.null)]) = true
      ↔ getField d f = some Value.null := by
  simp only [elementIsValidForQuery, entriesDoNotMatch, entryDoesNotMatch, truthy,
    Bool.false_and, Bool.or_false, getProp_obj]
  cases hgf : getField d f with
  | none => simp [jsGetD]
  | some v =>
    simp only [Option.getD_some]
    by_cases hv : v = Value.null
    · subst hv; simp
    · simp [hv, bne_iff_ne]

-- C3
/-- Claim C3 (counterexample): `{f: {$exists: false}}` does NOT match a
document in which `f` is absent: the truthy-sub-query presence guard rejects
the document before the `$exists` operator is consulted. -/
theorem C3_exists_false_missing_field_counterexample :
    elementIsValidForQuery (.obj []) (.obj [("f", .obj [("$exists", Value.bool false)])])
      = false := by decide

/-- Claim C3 (amended): `{f: {$exists: true}}` matches exactly the documents
in which `f` is present with a defined (non-`undefined`) value, and
`{f: {$exists: false}}` matches exactly the documents in which `f` is
present with value `undefined` — in particular a document in which `f` is
absent matches neither form, because the presence guard runs first. -/
theorem C3_exists_semantics (d : Doc) (f : String) :
    (elementIsValidForQuery (.obj d) (.obj [(f, .obj [("$exists", Value.bool true)])]) = true
      ↔ ∃ v, getField d f = some v ∧ v ≠ Value.undef)
    ∧ (elementIsValidForQuery (.obj d) (.obj [(f, .obj [("$exists", Value.bool false)])]) = true
      ↔ getField d f = some Value.undef) := by
  constructor
  · simp only [elementIsValidForQuery, entriesDoNotMatch, entryDoesNotMatch, truthy,
      isObjectType, hasProp_obj, subEntriesDoNotMatchAny, subOperatorFails,
      Bool.true_and, Bool.or_false, getProp_obj]
    cases hgf : getField d f with
    | none => simp
    | some v =>
      by_cases hv : v = Value.undef
      · subst hv; simp
      · simp [hv]
  · simp only [elementIsValidForQuery, entriesDoNotMatch, entryDoesNotMatch, truthy,
      isObjectType, hasProp_obj, subEntriesDoNotMatchAny, subOperatorFails,
      Bool.true_and, Bool.or_false, getProp_obj]
    cases hgf : getField d f with
    | none => simp
    | some v =>
      by_cases hv : v = Value.undef
      · subst hv; simp
      · simp [hv, bne_iff_ne]

/-- The `badId` variable computed by the `insert` loop is non-`null` at the
end exactly when some batch document carries a (defined) `_id` already
present in the pre-call content — provided no batch `_id` is literally
`null` (a `null` id duplicate would be indistinguishable from the initial
`badId = null`). -/
theorem foldl_insertStep_badId (c : ReactiveCollection) (data : List Doc) :
    ∀ (acc : List Doc × Nat × Value),
      (∀ d ∈ data, jsGetD d "_id" ≠ Value.null) →
      ((data.foldl (ReactiveCollection.insertStep c) acc).2.2 ≠ Value.null
        ↔ (acc.2.2 ≠ Value.null ∨ ∃ d ∈ data, jsGetD d "_id" ≠ Value.undef ∧
            ∃ el ∈ c._content, jsGetD d "_id" = jsGetD el "_id")) := by
  induction data with
  | nil => intro acc h; simp
  | cons obj rest ih =>
    intro acc h
    have hobj : jsGetD obj "_id" ≠ Value.null := h obj (List.mem_cons_self _ _)
    have hrest : ∀ d ∈ rest, jsGetD d "_id" ≠ Value.null :=
      fun d hd => h d (List.mem_cons_of_mem _ hd)
    rw [List.foldl_cons, ih (ReactiveCollection.insertStep c acc obj) hrest]
    by_cases h1 : jsGetD obj "_id" = Value.undef
    · simp [ReactiveCollection.insertStep, h1]
    · have h1b : (jsGetD obj "_id" == Value.undef) = false := by simpa using h1
      by_cases h2 : ∃ el ∈ c._content, jsGetD obj "_id" = jsGetD el "_id"
      · have h2b : (c._content.any fun el => jsGetD obj "_id" == jsGetD el "_id") = true := by
          simpa [List.any_eq_true] using h2
        simp [ReactiveCollection.insertStep, h1b, h2b, hobj, h1, h2]
      · have h2b : (c._content.any fun el => jsGetD obj "_id" == jsGetD el "_id") = false := by
          rw [List.any_eq_false]
          intro el hel
          simp only [beq_iff_eq]
          exact fun hc => h2 ⟨el, hel, hc⟩
        simp [ReactiveCollection.insertStep, h1b, h2b, h1, h2]

/-- Claim C2: `insert` rejects with the duplicate-id error exactly when the
batch contains a document whose caller-supplied `_id` is already present in
the stored content, and the rejection is atomic: on failure the stored
document sequence is exactly as it was before the call.  (Hypothesis: no
batch document carries the literal `null` as its `_id` — ids are strings in
the spec's data model; a `null` id would coincide with the sentinel initial
value of the `badId` variable.) -/
theorem C2_insert_duplicate_rejection (data : List Doc) (c : ReactiveCollection)
    (h : ∀ d ∈ data, jsGetD d "_id" ≠ Value.null) :
    ((ReactiveCollection.insert data c).1 ≠ none ↔ ∃ d ∈ data, jsGetD d "_id" ≠ Value.undef ∧
        ∃ el ∈ c._content, jsGetD d "_id" = jsGetD el "_id")
    ∧ ((ReactiveCollection.insert data c).1 ≠ none → (ReactiveCollection.insert data c).2._content = c._content) := by
  have hb := foldl_insertStep_badId c data ([], c._lastId, Value.null) h
  simp only [ne_eq, not_true_eq_false, false_or] at hb
  have hins : (ReactiveCollection.insert data c).1 ≠ none
      ↔ ¬(data.foldl (ReactiveCollection.insertStep c) ([], c._lastId, Value.null)).2.2 = Value.null := by
    by_cases hcase : (data.foldl (ReactiveCollection.insertStep c) ([], c._lastId, Value.null)).2.2 = Value.null
    · simp [ReactiveCollection.insert, hcase]
    · simp [ReactiveCollection.insert, hcase]
  constructor
  · rw [hins]; exact hb
  · intro hne
    rw [hins] at hne
    simp [ReactiveCollection.insert, hne]

/-- Witness for C2: re-inserting `{_id:'x'}` into a collection that already
holds a document with `_id` `'x'` is rejected with the content untouched. -/
theorem C2_insert_duplicate_rejection_witness :
    (ReactiveCollection.insert [[("_id", Value.str "x")]]
        ((ReactiveCollection.insert [[("_id", Value.str "x")]] (newCollection "w")).2)).1 ≠ none
    ∧ (ReactiveCollection.insert [[("_id", Value.str "x")]]
        ((ReactiveCollection.insert [[("_id", Value.str "x")]] (newCollection "w")).2)).2._content
      = ((ReactiveCollection.insert [[("_id", Value.str "x")]] (newCollection "w")).2)._content := by
  have h := C2_insert_duplicate_rejection [[("_id", Value.str "x")]]
    ((ReactiveCollection.insert [[("_id", Value.str "x")]] (newCollection "w")).2) (by decide)
  exact ⟨h.1.mpr (by decide), h.2 (h.1.mpr (by decide))⟩

/-- Claim C5: for every valid query, projection and options, `find` applies
its stages in a fixed order — filter by the Matcher, sort only when the sort
spec has at least one key (over the sort spec's keys in their defined
order), then skip (drop first N, only if N > 0), then limit (truncate to
first N, only if N > 0) — skip always before limit — and finally the
projection. -/
theorem C5_find_stage_order (c : ReactiveCollection) (query : Value) (projection : Option Doc)
    (options : FindOptions) (h : isObjectType query = true) :
    ReactiveCollection.find c query projection options
      = some (projectStage projection (limitStage options.limit (skipStage options.skip
          (sortStage options.sort (matchStage query c._content))))) := by
  unfold ReactiveCollection.find
  rw [if_pos h]
  congr 1
  unfold findDocs matchStage sortStage skipStage limitStage projectStage
  cases hs : options.sort with
  | nil => simp
  | cons p rest => simp

/-- Witness for C5 at the spec's own example (§8): on the four-document
test collection, `find({}, {num:1}, {sort:{num:-1}, skip:1})` returns the
document with `num:3` first (descending sort, then skip 1). -/
theorem C5_find_stage_order_witness :
    isObjectType (Value.obj []) = true
    ∧ ReactiveCollection.find sampleFour (Value.obj []) (some [("num", Value.num 1)])
        { sort := [("num", -1)], skip := 1 }
      = some [[("_id", Value.str "2"), ("num", Value.num 3)],
              [("_id", Value.str "1"), ("num", Value.num 2)],
              [("_id", Value.str "0"), ("num", Value.num 1)]] := by
  refine ⟨by decide, ?_⟩
  rw [C5_find_stage_order _ _ _ _ (by decide)]
  decide

/-- Claim C10: a `remove` whose (valid) query matches no stored document is
still resolved, leaves content and pending buffer unchanged, but restarts
the debounce timer; when the timer then fires, every current subscriber is
invoked, in registration order, with the accumulated buffer — which is the
unchanged (possibly empty) pending buffer — after which the buffer is
cleared. -/
theorem C10_remove_no_match_notifies (query : Value) (options : RemoveOptions)
    (c : ReactiveCollection)
    (hq : isObjectType query = true)
    (hz : ∀ d ∈ c._content, elementIsValidForQuery (.obj d) query = false) :
    (ReactiveCollection.remove query options c).1 = .resolved
    ∧ (ReactiveCollection.remove query options c).2._content = c._content
    ∧ (ReactiveCollection.remove query options c).2._changesToNotify = c._changesToNotify
    ∧ (ReactiveCollection.remove query options c).2._notifyTimeout = true
    ∧ (flushNotifications (ReactiveCollection.remove query options c).2).1
      = c._watchers.map (fun w => (w, c._changesToNotify))
    ∧ (flushNotifications (ReactiveCollection.remove query options c).2).2._changesToNotify
      = [] := by
  have hfil : c._content.filter (fun el => elementIsValidForQuery (.obj el) query) = [] := by
    rw [List.filter_eq_nil_iff]
    intro a ha
    simp [hz a ha]
  have hres : ReactiveCollection.find c query none
      (if options.justOne then { limit := 1 } else {}) = some [] := by
    unfold ReactiveCollection.find findDocs
    rw [if_pos hq]
    cases options.justOne <;> simp [hfil]
  simp only [ReactiveCollection.remove, hres]
  simp [notifyChangesForIds, flushNotifications]

/-- A watched one-document collection whose debounce window has already
flushed: content `[{num:1,_id:'0'}]`, one subscriber (7), empty pending
buffer, no timer armed. -/
def watchedQuiet : ReactiveCollection :=
  (flushNotifications
    ((ReactiveCollection.insert [[("num", Value.num 1)]] (subscribe (newCollection "t") 7)).2)).2

/-- Witness for C10: removing with the no-match query `{zz:1}` on the
quiescent watched collection resolves, re-arms the timer, and the flush then
delivers the empty buffer to subscriber 7 — a notification with zero Change
entries. -/
theorem C10_remove_no_match_notifies_witness :
    (ReactiveCollection.remove (.obj [("zz", Value.num 1)]) {} watchedQuiet).1 = .resolved
    ∧ (ReactiveCollection.remove (.obj [("zz", Value.num 1)]) {} watchedQuiet).2._notifyTimeout
      = true
    ∧ (flushNotifications
        (ReactiveCollection.remove (.obj [("zz", Value.num 1)]) {} watchedQuiet).2).1
      = [(7, [])] := by
  have h := C10_remove_no_match_notifies (.obj [("zz", Value.num 1)]) {} watchedQuiet
    (by decide) (by decide)
  exact ⟨h.1, h.2.2.2.1, (h.2.2.2.2.1).trans (by decide)⟩

/-- Claim C4 (amended): whenever a notification step's affected-id list is
duplicate-free (which holds whenever stored `_id`s are unique — see the C4
counterexample for the duplicate-insert corner), the pending buffer keeps at
most one Change per `_id`: the step first removes every pending entry for
the affected ids, then appends the fresh Changes in the ids' given order,
and re-arms the debounce timer; when the timer fires, the entire accumulated
buffer is delivered once to every current subscriber in registration order,
after which the buffer is cleared. -/
theorem C4_pending_buffer_coalescing (c : ReactiveCollection) (ids : List Value) (op : String)
    (hids : ids.Nodup)
    (hbuf : (c._changesToNotify.map Change._id).Nodup) :
    ((notifyChangesForIds c ids op)._changesToNotify.map Change._id).Nodup
    ∧ ((notifyChangesForIds c ids op)._changesToNotify.map Change._id
        = (c._changesToNotify.filter (fun el => !(ids.contains el._id))).map Change._id ++ ids)
    ∧ (notifyChangesForIds c ids op)._notifyTimeout = true
    ∧ (flushNotifications (notifyChangesForIds c ids op)).1
      = (notifyChangesForIds c ids op)._watchers.map
          (fun w => (w, (notifyChangesForIds c ids op)._changesToNotify))
    ∧ (flushNotifications (notifyChangesForIds c ids op)).2._changesToNotify = [] := by
  have hmap : (notifyChangesForIds c ids op)._changesToNotify.map Change._id
      = (c._changesToNotify.filter (fun el => !(ids.contains el._id))).map Change._id ++ ids := by
    unfold notifyChangesForIds
    rw [List.map_append]
    congr 1
    rw [List.map_map]
    apply List.map_id''
    intro current
    simp only [Function.comp]
    cases h : c._content.find? (fun el => jsGetD el "_id" == current) <;> simp [h]
  refine ⟨?_, hmap, rfl, rfl, rfl⟩
  rw [hmap]
  apply List.Nodup.append
  · exact List.Nodup.sublist (List.Sublist.map _ (List.filter_sublist _)) hbuf
  · exact hids
  · intro x hx1 hx2
    obtain ⟨el, hel, rfl⟩ := List.mem_map.mp hx1
    obtain ⟨hmem, hnc⟩ := List.mem_filter.mp hel
    simp [hx2] at hnc

/-- Witness for C4 (amended): on a collection whose buffer already holds the
insert Change for id '0', a notification step for id '0' leaves exactly one
pending Change with `_id` '0' (the stale entry is replaced). -/
theorem C4_pending_buffer_coalescing_witness :
    (((notifyChangesForIds
        ((ReactiveCollection.insert [[("num", Value.num 1)]] (newCollection "t")).2)
        [Value.str "0"] "update")._changesToNotify.map Change._id).Nodup)
    ∧ ((notifyChangesForIds
        ((ReactiveCollection.insert [[("num", Value.num 1)]] (newCollection "t")).2)
        [Value.str "0"] "update")._changesToNotify.map Change._id)
      = [Value.str "0"] := by
  have h := C4_pending_buffer_coalescing
    ((ReactiveCollection.insert [[("num", Value.num 1)]] (newCollection "t")).2)
    [Value.str "0"] "update" (by decide) (by decide)
  exact ⟨h.1, h.2.1.trans (by decide)⟩

/-- Claim C9 (counterexample): with `remove({}, {justOne:true, sort:{num:-1}})`
on the four-document test collection, the code removes `{num:1,_id:'0'}` —
the first match in store order — while the first document of the
sort-spec-sorted match set, `{num:4,_id:'3'}`, is still present afterwards:
the caller-supplied sort is discarded by the `{limit:1}` option translation
and does not determine which document is removed. -/
theorem C9_remove_justOne_sort_counterexample :
    ((ReactiveCollection.remove (Value.obj [])
        { justOne := true, sort := [("num", -1)] } sampleFour).2._content
      = [[("num", Value.num 2), ("_id", Value.str "1")],
         [("num", Value.num 3), ("_id", Value.str "2")],
         [("num", Value.num 4), ("_id", Value.str "3")]])
    ∧ ((sortStage [("num", -1)] (matchStage (Value.obj []) sampleFour._content)).head?
      = some [("num", Value.num 4), ("_id", Value.str "3")])
    ∧ [("num", Value.num 4), ("_id", Value.str "3")]
        ∈ (ReactiveCollection.remove (Value.obj [])
            { justOne := true, sort := [("num", -1)] } sampleFour).2._content := by
  refine ⟨by decide, by decide, by decide⟩

/-- The first content document whose `_id` equals the `_id` of the first
`P`-match is that match itself, provided the stored ids are pairwise
distinct. -/
theorem findIdx_id_of_first_match (P : Doc → Bool) :
    ∀ (content : List Doc), (content.map (fun d => jsGetD d "_id")).Nodup →
      ∀ (m : Doc) (rest : List Doc), content.filter P = m :: rest →
      content.findIdx? (fun el => jsGetD el "_id" == jsGetD m "_id")
        = some (content.findIdx P) := by
  intro content
  induction content with
  | nil => intro _ m rest hf; simp at hf
  | cons x tail ih =>
    intro hnodup m rest hf
    by_cases hx : P x
    · rw [List.filter_cons_of_pos hx] at hf
      obtain ⟨rfl, -⟩ : x = m ∧ tail.filter P = rest := by
        constructor
        · exact (List.cons.injEq _ _ _ _ ▸ hf).1
        · exact (List.cons.injEq _ _ _ _ ▸ hf).2
      rw [List.findIdx?_cons, List.findIdx_cons]
      simp [hx]
    · rw [List.filter_cons_of_neg hx] at hf
      have hm_tail : m ∈ tail := by
        have : m ∈ tail.filter P := by rw [hf]; exact List.mem_cons_self _ _
        exact List.mem_of_mem_filter this
      have hnd : (jsGetD x "_id") ∉ tail.map (fun d => jsGetD d "_id")
          ∧ (tail.map (fun d => jsGetD d "_id")).Nodup := by
        rw [List.map_cons, List.nodup_cons] at hnodup
        exact hnodup
      have hxid : jsGetD x "_id" ≠ jsGetD m "_id" := by
        intro he
        exact hnd.1 (he ▸ List.mem_map_of_mem (fun d => jsGetD d "_id") hm_tail)
      have htail := ih hnd.2 m rest hf
      rw [List.findIdx?_cons, List.findIdx_cons]
      have hxb : (jsGetD x "_id" == jsGetD m "_id") = false := by simpa using hxid
      simp [hxb, hx, htail]

/-- Claim C9 (amended): `remove(query, {justOne:true, sort:S})` with at least
one match removes exactly one document, but the caller-supplied sort `S` is
ignored: the removed document is the first matching document in store order
(the option translation passes exactly `{limit:1}` to `find`, discarding the
rest of the options). -/
theorem C9_remove_justOne_first_in_store_order (query : Value) (options : RemoveOptions)
    (c : ReactiveCollection)
    (hq : isObjectType query = true)
    (hj : options.justOne = true)
    (hnodup : (c._content.map (fun d => jsGetD d "_id")).Nodup)
    (hne : c._content.filter (fun d => elementIsValidForQuery (.obj d) query) ≠ []) :
    (ReactiveCollection.remove query options c).1 = .resolved
    ∧ (ReactiveCollection.remove query options c).2._content
      = c._content.eraseIdx
          (c._content.findIdx (fun d => elementIsValidForQuery (.obj d) query))
    ∧ (ReactiveCollection.remove query options c).2._content.length + 1
      = c._content.length := by
  obtain ⟨m, rest, hf⟩ := List.exists_cons_of_ne_nil hne
  have hfind := findIdx_id_of_first_match
    (fun d => elementIsValidForQuery (.obj d) query) c._content hnodup m rest hf
  have hres : ReactiveCollection.find c query none
      (if options.justOne then { limit := 1 } else {}) = some [m] := by
    rw [hj]
    unfold ReactiveCollection.find findDocs
    rw [if_pos hq]
    simp [hf]
  have hidx : c._content.findIdx (fun d => elementIsValidForQuery (.obj d) query)
      < c._content.length := by
    apply List.findIdx_lt_length_of_exists
    have : m ∈ c._content.filter (fun d => elementIsValidForQuery (.obj d) query) := by
      rw [hf]; exact List.mem_cons_self _ _
    have hmf := List.mem_filter.mp this
    exact ⟨m, hmf.1, hmf.2⟩
  refine ⟨?_, ?_, ?_⟩
  · simp [ReactiveCollection.remove, hres]
  · simp [ReactiveCollection.remove, hres, ReactiveCollection.removeStep, hfind,
      notifyChangesForIds]
  · have h2 : (ReactiveCollection.remove query options c).2._content
        = c._content.eraseIdx
            (c._content.findIdx (fun d => elementIsValidForQuery (.obj d) query)) := by
      simp [ReactiveCollection.remove, hres, ReactiveCollection.removeStep, hfind,
        notifyChangesForIds]
    rw [h2, List.length_eraseIdx]
    simp [hidx]
    omega

/-- Witness for C9 (amended): on the four-document test collection,
`remove({}, {justOne:true, sort:{num:-1}})` resolves and removes exactly one
document (the count drops from 4 to 3). -/
theorem C9_remove_justOne_first_in_store_order_witness :
    (ReactiveCollection.remove (Value.obj [])
        { justOne := true, sort := [("num", -1)] } sampleFour).1 = .resolved
    ∧ (ReactiveCollection.remove (Value.obj [])
        { justOne := true, sort := [("num", -1)] } sampleFour).2._content.length + 1
      = sampleFour._content.length := by
  have h := C9_remove_justOne_first_in_store_order (Value.obj [])
    { justOne := true, sort := [("num", -1)] } sampleFour
    (by decide) (by decide) (by decide) (by decide)
  exact ⟨h.1, h.2.2⟩

/-- A single-document insert whose document has no (defined) `_id` always
succeeds: the document is appended with the counter id assigned. -/
theorem insertOne_fresh_undef (d : Doc) (c : ReactiveCollection)
    (h1 : jsGetD d "_id" = Value.undef) :
    (ReactiveCollection.insertOne d c).1 = none
    ∧ (ReactiveCollection.insertOne d c).2._content
      = c._content ++ [setField d "_id" (.str (toString c._lastId))] := by
  constructor <;>
    simp [ReactiveCollection.insertOne, ReactiveCollection.insert,
      ReactiveCollection.insertStep, objectId, h1, notifyChangesForIds]

/-- A single-document insert whose document carries an `_id` not present in
the content succeeds: the document is appended unchanged. -/
theorem insertOne_fresh_given (d : Doc) (c : ReactiveCollection)
    (h1 : jsGetD d "_id" ≠ Value.undef)
    (h2 : ∀ el ∈ c._content, jsGetD el "_id" ≠ jsGetD d "_id") :
    (ReactiveCollection.insertOne d c).1 = none
    ∧ (ReactiveCollection.insertOne d c).2._content = c._content ++ [d] := by
  have h1b : (jsGetD d "_id" == Value.undef) = false := by simpa using h1
  have h2b : (c._content.any fun el => jsGetD d "_id" == jsGetD el "_id") = false := by
    rw [List.any_eq_false]
    intro el hel
    simp only [beq_iff_eq]
    exact fun hc => h2 el hel hc.symm
  constructor <;>
    simp [ReactiveCollection.insertOne, ReactiveCollection.insert,
      ReactiveCollection.insertStep, h1b, h2b, notifyChangesForIds]

/-- Claim C6 (amended): for an update whose selection matches zero documents
— without upsert the operation is a no-op that resolves, leaving the state
untouched; with upsert, exactly one document, synthesized by applying the
patch collaborator to the query object, is inserted (with a counter id when
the synthesized document has no `_id`, unchanged when its `_id` is fresh),
and a subsequent find on criteria matching only the upserted document
returns exactly that one document.  (When the synthesized `_id` collides
with a stored one, the inner insert rejects and nothing is inserted — see
the C6 counterexample.) -/
theorem C6_update_zero_matches (modify : Value → Value → Doc) (query replace : Value)
    (options : FindOptions) (c : ReactiveCollection)
    (hq : isObjectType query = true)
    (hr : isObjectType replace = true)
    (hzero : findDocs c._content query none options = []) :
    (options.upsert = false →
      ReactiveCollection.update modify query replace options c = (.resolved, c))
    ∧ (options.upsert = true → jsGetD (modify query replace) "_id" = Value.undef →
        (ReactiveCollection.update modify query replace options c).1 = .resolved
        ∧ (ReactiveCollection.update modify query replace options c).2._content
          = c._content ++ [setField (modify query replace) "_id" (.str (toString c._lastId))])
    ∧ (options.upsert = true → jsGetD (modify query replace) "_id" ≠ Value.undef →
        (∀ el ∈ c._content, jsGetD el "_id" ≠ jsGetD (modify query replace) "_id") →
        (ReactiveCollection.update modify query replace options c).1 = .resolved
        ∧ (ReactiveCollection.update modify query replace options c).2._content
          = c._content ++ [modify query replace])
    ∧ (∀ newDoc,
        (ReactiveCollection.update modify query replace options c).2._content
            = c._content ++ [newDoc] →
        ∀ q', isObjectType q' = true →
          elementIsValidForQuery (.obj newDoc) q' = true →
          (∀ d ∈ c._content, elementIsValidForQuery (.obj d) q' = false) →
          ReactiveCollection.find
            (ReactiveCollection.update modify query replace options c).2 q' none {}
            = some [newDoc]) := by
  have hfind : ReactiveCollection.find c query none options
      = some (findDocs c._content query none options) := by
    unfold ReactiveCollection.find
    rw [if_pos hq]
  have hrb : (!isObjectType replace) = false := by simp [hr]
  refine ⟨?_, ?_, ?_, ?_⟩
  · intro hup
    unfold ReactiveCollection.update
    rw [hrb, hfind, hzero]
    simp [hup]
  · intro hup hundef
    have hio := insertOne_fresh_undef (modify query replace) c hundef
    unfold ReactiveCollection.update
    rw [hrb, hfind, hzero]
    cases hio2 : ReactiveCollection.insertOne (modify query replace) c with
    | mk fst snd =>
      have hfst : fst = none := by
        have := hio.1
        rw [hio2] at this
        exact this
      subst hfst
      have hsnd : snd._content
          = c._content ++ [setField (modify query replace) "_id" (.str (toString c._lastId))] := by
        have := hio.2
        rw [hio2] at this
        exact this
      simp [hup, hio2, hsnd]
  · intro hup hgiven hfresh
    have hio := insertOne_fresh_given (modify query replace) c hgiven hfresh
    unfold ReactiveCollection.update
    rw [hrb, hfind, hzero]
    cases hio2 : ReactiveCollection.insertOne (modify query replace) c with
    | mk fst snd =>
      have hfst : fst = none := by
        have := hio.1
        rw [hio2] at this
        exact this
      subst hfst
      have hsnd : snd._content = c._content ++ [modify query replace] := by
        have := hio.2
        rw [hio2] at this
        exact this
      simp [hup, hio2, hsnd]
  · intro newDoc hcontent q' hq' hmatch hnomatch
    unfold ReactiveCollection.find
    rw [if_pos hq', hcontent]
    unfold findDocs
    have hfil : (c._content ++ [newDoc]).filter
        (fun el => elementIsValidForQuery (.obj el) q') = [newDoc] := by
      rw [List.filter_append]
      have h1 : c._content.filter (fun el => elementIsValidForQuery (.obj el) q') = [] := by
        rw [List.filter_eq_nil_iff]
        intro a ha
        simp [hnomatch a ha]
      rw [h1]
      simp [hmatch]
    simp [hfil]

/-- Claim C6 (counterexample): an upsert whose synthesized document carries
an `_id` colliding with a stored document inserts nothing.  On a collection
holding `{_id:'0', num:1}`, the update with query `{_id:'0', num:999}` (zero
matches, as the third conjunct certifies) and patch `{$set:{a:1}}` under
`{upsert:true}` synthesizes `{_id:'0', num:999, a:1}`; the inner insert
rejects the duplicate id, the document count stays 1 instead of becoming 2,
and the update promise never settles. -/
theorem C6_upsert_collision_counterexample :
    (ReactiveCollection.update modifyWithSet
        (.obj [("_id", Value.str "0"), ("num", Value.num 999)])
        (.obj [("$set", .obj [("a", Value.num 1)])])
        { upsert := true }
        ((ReactiveCollection.insert [[("_id", Value.str "0"), ("num", Value.num 1)]]
          (newCollection "c")).2)).1 = JsOutcome.pending
    ∧ (ReactiveCollection.update modifyWithSet
        (.obj [("_id", Value.str "0"), ("num", Value.num 999)])
        (.obj [("$set", .obj [("a", Value.num 1)])])
        { upsert := true }
        ((ReactiveCollection.insert [[("_id", Value.str "0"), ("num", Value.num 1)]]
          (newCollection "c")).2)).2._content
      = [[("_id", Value.str "0"), ("num", Value.num 1)]]
    ∧ findDocs [[("_id", Value.str "0"), ("num", Value.num 1)]]
        (.obj [("_id", Value.str "0"), ("num", Value.num 999)]) none { upsert := true }
      = [] := by
  refine ⟨by decide, by decide, by decide⟩

/-- Witness for C6 (amended): on the four-document test collection,
`update({num:999}, {num:10}, {upsert:true})` (replacement-document patch)
resolves, appends exactly one document `{num:10, _id:'4'}`, and a subsequent
`find({num:10})` returns exactly that document. -/
theorem C6_update_zero_matches_witness :
    (ReactiveCollection.update modifyReplace (.obj [("num", Value.num 999)])
        (.obj [("num", Value.num 10)]) { upsert := true } sampleFour).1 = .resolved
    ∧ (ReactiveCollection.update modifyReplace (.obj [("num", Value.num 999)])
        (.obj [("num", Value.num 10)]) { upsert := true } sampleFour).2._content
      = sampleFour._content ++ [[("num", Value.num 10), ("_id", Value.str "4")]]
    ∧ ReactiveCollection.find
        (ReactiveCollection.update modifyReplace (.obj [("num", Value.num 999)])
          (.obj [("num", Value.num 10)]) { upsert := true } sampleFour).2
        (.obj [("num", Value.num 10)]) none {}
      = some [[("num", Value.num 10), ("_id", Value.str "4")]] := by
  have h := C6_update_zero_matches modifyReplace (.obj [("num", Value.num 999)])
    (.obj [("num", Value.num 10)]) { upsert := true } sampleFour
    (by decide) (by decide) (by decide)
  have h2 := h.2.1 (by decide) (by decide)
  refine ⟨h2.1, h2.2.trans (by decide), ?_⟩
  exact h.2.2.2 [("num", Value.num 10), ("_id", Value.str "4")]
    (h2.2.trans (by decide)) (.obj [("num", Value.num 10)])
    (by decide) (by decide) (by decide)

theorem setField_cons_ne (k1 k : String) (v1 v : Value) (rest : Doc) (h : k1 ≠ k) :
    setField ((k1, v1) :: rest) k v = (k1, v1) :: setField rest k v := by
  have hb : (k1 == k) = false := by simpa using h
  unfold setField
  simp only [List.any_cons, hb, Bool.false_or, List.map_cons, Bool.false_eq_true, if_false]
  cases hany : rest.any (fun p => p.1 == k) with
  | true => simp [hb]
  | false => simp

theorem setField_cons_eq (k : String) (v1 v : Value) (rest : Doc) :
    setField ((k, v1) :: rest) k v
      = (k, v) :: rest.map (fun p => if p.1 == k then (k, v) else p) := by
  unfold setField
  simp

theorem getField_map_replace (rest : Doc) (k k' : String) (v : Value) (h : k' ≠ k) :
    getField (rest.map (fun p => if p.1 == k then (k, v) else p)) k' = getField rest k' := by
  induction rest with
  | nil => simp [getField]
  | cons p tl ih =>
    rcases p with ⟨k2, v2⟩
    by_cases h2 : k2 = k
    · subst h2
      rw [List.map_cons]
      have hhead : (if ((k2, v2).1 == k2) = true then (k2, v) else (k2, v2)) = (k2, v) := by
        simp
      rw [hhead]
      simp only [getField]
      rw [if_neg (Ne.symm h), if_neg (Ne.symm h)]
      exact ih
    · have hb2 : (k2 == k) = false := by simpa using h2
      rw [List.map_cons]
      have hhead : (if ((k2, v2).1 == k) = true then (k, v) else (k2, v2)) = (k2, v2) := by
        simp [hb2]
      rw [hhead]
      by_cases h3 : k2 = k'
      · subst h3
        simp [getField]
      · simp only [getField]
        rw [if_neg h3, if_neg h3]
        exact ih

theorem getField_setField_self (d : Doc) (k : String) (v : Value) :
    getField (setField d k v) k = some v := by
  induction d with
  | nil => simp [setField, getField]
  | cons p rest ih =>
    rcases p with ⟨k1, v1⟩
    by_cases h : k1 = k
    · subst h
      rw [setField_cons_eq]
      simp [getField]
    · rw [setField_cons_ne k1 k v1 v rest h]
      simp [getField, h, ih]

theorem getField_setField_ne (d : Doc) (k k' : String) (v : Value) (h : k' ≠ k) :
    getField (setField d k v) k' = getField d k' := by
  induction d with
  | nil => simp [setField, getField, Ne.symm h]
  | cons p rest ih =>
    rcases p with ⟨k1, v1⟩
    by_cases h1 : k1 = k
    · subst h1
      rw [setField_cons_eq]
      simp only [getField]
      rw [if_neg (Ne.symm h), if_neg (Ne.symm h)]
      exact getField_map_replace rest k1 k' v h
    · rw [setField_cons_ne k1 k v1 v rest h1]
      by_cases h3 : k1 = k'
      · subst h3
        simp [getField]
      · simp only [getField]
        rw [if_neg h3, if_neg h3]
        exact ih

theorem getField_filter_eq_key (d : Doc) (k : String) :
    getField (d.filter (fun p => p.1 == k)) k = getField d k := by
  induction d with
  | nil => simp [getField]
  | cons p rest ih =>
    rcases p with ⟨k1, v1⟩
    by_cases h : k1 = k
    · subst h
      simp [List.filter_cons, getField]
    · have hb : (k1 == k) = false := by simpa using h
      simp [List.filter_cons, hb, getField, h, ih]

theorem getField_filter_eq_none (d : Doc) (j k : String) (h : k ≠ j) :
    getField (d.filter (fun p => p.1 == j)) k = none := by
  induction d with
  | nil => simp [getField]
  | cons p rest ih =>
    rcases p with ⟨k1, v1⟩
    by_cases h1 : k1 = j
    · subst h1
      simp [List.filter_cons, getField, Ne.symm h, ih]
    · have hb : (k1 == j) = false := by simpa using h1
      simp [List.filter_cons, hb, ih]

theorem getField_filter_ne_key (d : Doc) (j k : String) (h : k ≠ j) :
    getField (d.filter (fun p => p.1 != j)) k = getField d k := by
  induction d with
  | nil => simp [getField]
  | cons p rest ih =>
    rcases p with ⟨k1, v1⟩
    by_cases h1 : k1 = j
    · subst h1
      simp [List.filter_cons, getField, Ne.symm h, ih]
    · have hb : (k1 != j) = true := by simpa using h1
      by_cases h3 : k1 = k
      · subst h3
        simp [List.filter_cons, hb, getField]
      · simp [List.filter_cons, hb, getField, h3, ih]

theorem getField_foldl_setField_not_mem (l : Doc) (k : String) :
    ∀ (acc : Doc), (∀ p ∈ l, p.1 ≠ k) →
    getField (l.foldl (fun acc p => setField acc p.1 p.2) acc) k = getField acc k := by
  induction l with
  | nil => intro acc _; simp
  | cons p tl ih =>
    intro acc h
    rw [List.foldl_cons]
    rw [ih (setField acc p.1 p.2) (fun q hq => h q (List.mem_cons_of_mem _ hq))]
    exact getField_setField_ne acc p.1 k p.2 (fun he => h p (List.mem_cons_self _ _) he.symm)

theorem getField_foldl_setField_nodup (l : Doc) (k : String) :
    ∀ (acc : Doc), (l.map Prod.fst).Nodup →
    getField (l.foldl (fun acc p => setField acc p.1 p.2) acc) k
      = (getField l k).or (getField acc k) := by
  induction l with
  | nil => intro acc _; simp [getField]
  | cons p tl ih =>
    intro acc hnd
    rcases p with ⟨k1, v1⟩
    rw [List.map_cons, List.nodup_cons] at hnd
    rw [List.foldl_cons]
    by_cases hk : k = k1
    · subst hk
      have hnot : ∀ q ∈ tl, q.1 ≠ k := by
        intro q hq he
        have hmem : q.1 ∈ tl.map Prod.fst := List.mem_map_of_mem Prod.fst hq
        rw [he] at hmem
        exact hnd.1 hmem
      rw [getField_foldl_setField_not_mem tl k (setField acc k v1) hnot]
      rw [getField_setField_self]
      simp [getField]
    · rw [ih (setField acc k1 v1) hnd.2]
      rw [getField_setField_ne acc k1 k v1 hk]
      simp [getField, Ne.symm hk]

theorem updItem_id (d m : Doc) : getField (updItem d m) "_id" = getField d "_id" := by
  unfold updItem
  rw [getField_foldl_setField_not_mem]
  · exact getField_filter_eq_key d "_id"
  · intro p hp
    have := List.of_mem_filter hp
    simpa using this

theorem updItem_ne (d m : Doc) (k : String) (hk : k ≠ "_id")
    (hm : (m.map Prod.fst).Nodup) :
    getField (updItem d m) k = getField m k := by
  unfold updItem
  rw [getField_foldl_setField_nodup]
  · rw [getField_filter_ne_key m "_id" k hk, getField_filter_eq_none d "_id" k hk]
    simp
  · have hsub : ((m.filter (fun p => p.1 != "_id")).map Prod.fst).Sublist (m.map Prod.fst) :=
      List.Sublist.map _ (List.filter_sublist _)
    exact List.Nodup.sublist hsub hm

/-- Claim C7: an update that matches at least one document patches each
matched stored document in place: the stored document at each position keeps
its original `_id` (the in-place replace clears every field except `_id`,
then sets every field of the patch result except `_id`), every other field
equals the patch collaborator's result for that document, and documents
outside the selection are untouched (same position, same content).
Hypotheses: valid query and replacement, at least one match, and the patch
collaborator returns documents with pairwise-distinct keys (JavaScript
objects cannot carry duplicate keys). -/
theorem C7_update_patch_in_place (modify : Value → Value → Doc) (query replace : Value)
    (options : FindOptions) (c : ReactiveCollection)
    (hq : isObjectType query = true)
    (hr : isObjectType replace = true)
    (hne : findDocs c._content query none options ≠ [])
    (hm : ∀ d ∈ findDocs c._content query none options,
        ((modify (.obj d) replace).map Prod.fst).Nodup) :
    (ReactiveCollection.update modify query replace options c).1 = .resolved
    ∧ (ReactiveCollection.update modify query replace options c).2._content.length
      = c._content.length
    ∧ (∀ i, i < c._content.length →
        ((c._content.getD i [] ∈ findDocs c._content query none options →
          getField
              ((ReactiveCollection.update modify query replace options c).2._content.getD i [])
              "_id"
            = getField (c._content.getD i []) "_id"
          ∧ ∀ k, k ≠ "_id" →
              getField
                ((ReactiveCollection.update modify query replace options c).2._content.getD i [])
                k
              = getField (modify (.obj (c._content.getD i [])) replace) k)
        ∧ (c._content.getD i [] ∉ findDocs c._content query none options →
            (ReactiveCollection.update modify query replace options c).2._content.getD i []
              = c._content.getD i []))) := by
  have hfind : ReactiveCollection.find c query none options
      = some (findDocs c._content query none options) := by
    unfold ReactiveCollection.find
    rw [if_pos hq]
  have hrb : (!isObjectType replace) = false := by simp [hr]
  have hlen0 : ((findDocs c._content query none options).length == 0) = false := by
    cases hR : findDocs c._content query none options with
    | nil => exact absurd hR hne
    | cons a l => simp
  have hcontent : (ReactiveCollection.update modify query replace options c).2._content
      = c._content.map (fun result =>
          if (findDocs c._content query none options).contains result
          then updItem result (modify (.obj result) replace) else result) := by
    unfold ReactiveCollection.update
    simp only [hrb, Bool.false_eq_true, if_false, hfind, hlen0, notifyChangesForIds]
  have hres : (ReactiveCollection.update modify query replace options c).1 = .resolved := by
    unfold ReactiveCollection.update
    simp only [hrb, Bool.false_eq_true, if_false, hfind, hlen0]
  refine ⟨hres, by rw [hcontent]; exact List.length_map _ _, ?_⟩
  intro i hi
  have hgd : c._content.getD i [] = c._content.get ⟨i, hi⟩ := by
    rw [List.getD_eq_getElem c._content [] hi]
    simp
  have hgd2 : (ReactiveCollection.update modify query replace options c).2._content.getD i []
      = (fun result =>
          if (findDocs c._content query none options).contains result
          then updItem result (modify (.obj result) replace) else result)
        (c._content.get ⟨i, hi⟩) := by
    rw [hcontent]
    have hi2 : i < (c._content.map (fun result =>
        if (findDocs c._content query none options).contains result
        then updItem result (modify (.obj result) replace) else result)).length := by
      simpa using hi
    rw [List.getD_eq_getElem _ [] hi2]
    simp
  constructor
  · intro hmem
    rw [hgd] at hmem
    have hc : (findDocs c._content query none options).contains (c._content.get ⟨i, hi⟩)
        = true := by
      simp only [List.get_eq_getElem] at hmem
      simp [hmem]
    rw [hgd2, hgd]
    simp only [hc, if_true]
    constructor
    · exact updItem_id _ _
    · intro k hk
      exact updItem_ne _ _ k hk (hm _ hmem)
  · intro hmem
    rw [hgd] at hmem
    have hc : (findDocs c._content query none options).contains (c._content.get ⟨i, hi⟩)
        = false := by
      simp only [List.get_eq_getElem] at hmem
      simp [hmem]
    rw [hgd2, hgd]
    simp only [hc, Bool.false_eq_true, if_false]

/-- Witness for C7: `update({num:{$gte:3}}, {$set:{updated:true}})` on the
four-document test collection resolves, keeps the document count, preserves
the `_id` of the matched document at position 2 while giving it the patched
`updated` field, and leaves the unmatched document at position 0 untouched. -/
theorem C7_update_patch_in_place_witness :
    (ReactiveCollection.update modifyWithSet (.obj [("num", .obj [("$gte", Value.num 3)])])
        (.obj [("$set", .obj [("updated", Value.bool true)])]) {} sampleFour).1 = .resolved
    ∧ (ReactiveCollection.update modifyWithSet (.obj [("num", .obj [("$gte", Value.num 3)])])
        (.obj [("$set", .obj [("updated", Value.bool true)])]) {} sampleFour).2._content.length
      = sampleFour._content.length
    ∧ getField ((ReactiveCollection.update modifyWithSet
          (.obj [("num", .obj [("$gte", Value.num 3)])])
          (.obj [("$set", .obj [("updated", Value.bool true)])]) {} sampleFour).2._content.getD 2
          []) "_id"
      = getField (sampleFour._content.getD 2 []) "_id"
    ∧ getField ((ReactiveCollection.update modifyWithSet
          (.obj [("num", .obj [("$gte", Value.num 3)])])
          (.obj [("$set", .obj [("updated", Value.bool true)])]) {} sampleFour).2._content.getD 2
          []) "updated"
      = getField (modifyWithSet (.obj (sampleFour._content.getD 2 []))
          (.obj [("$set", .obj [("updated", Value.bool true)])])) "updated"
    ∧ (ReactiveCollection.update modifyWithSet (.obj [("num", .obj [("$gte", Value.num 3)])])
        (.obj [("$set", .obj [("updated", Value.bool true)])]) {} sampleFour).2._content.getD 0 []
      = sampleFour._content.getD 0 [] := by
  have h := C7_update_patch_in_place modifyWithSet (.obj [("num", .obj [("$gte", Value.num 3)])])
    (.obj [("$set", .obj [("updated", Value.bool true)])]) {} sampleFour
    (by decide) (by decide) (by decide) (by decide)
  have h2 := (h.2.2 2 (by decide)).1 (by decide)
  have h0 := (h.2.2 0 (by decide)).2 (by decide)
  exact ⟨h.1, h.2.1, h2.1, h2.2 "updated" (by decide), h0⟩
